import Mathlib

/-
Verification of the newsletter generator's response-extraction and
orchestration logic (src/App.tsx and services/geminiService.ts) against
its specification.  Strings are modelled as `List Char`; the external AI
boundary is modelled by environments that supply each network call's
response as `Except Unit (List Char)` (`.error ()` is a failed transport).
-/

/-- JavaScript `\s` / `String.prototype.trim` whitespace, as used by the
regexes and `trim()` calls in geminiService.ts. -/
def isWs (c : Char) : Bool :=
  c == ' ' || c == '\t' || c == '\n' || c == '\r' || c == '\u000B' || c == '\u000C' ||
  c == '\u00A0' || c == '\u1680' || (decide ('\u2000' ≤ c) && decide (c ≤ '\u200A')) ||
  c == '\u2028' || c == '\u2029' || c == '\u202F' || c == '\u205F' ||
  c == '\u3000' || c == '\uFEFF'

/-- JavaScript `String.prototype.trim`: strip leading and trailing
whitespace. -/
def jsTrim (s : List Char) : List Char :=
  ((s.dropWhile isWs).reverse.dropWhile isWs).reverse

/-- The backtick character, used by the markdown fences in the regexes of
geminiService.ts. -/
def btick : Char := Char.ofNat 96

/-- An opening curly brace (the `startsWith` test of App.tsx line 104 and
the object case of `JSON.parse`). -/
def lbrace : Char := Char.ofNat 123

/-- A closing curly brace. -/
def rbrace : Char := Char.ofNat 125

/-- A three-backtick markdown fence delimiter. -/
def fence3 : List Char := [btick, btick, btick]

/-- Parsed JSON values, the result type of the `JSON.parse` model.  Numbers
keep their source lexeme (no claim inspects a numeric value). -/
inductive Json where
  | null
  | bool (b : Bool)
  | num (lex : List Char)
  | str (s : List Char)
  | arr (elems : List Json)
  | obj (fields : List (List Char × Json))

/-- JSON-grammar whitespace (stricter than JavaScript `\s`): the
insignificant whitespace accepted by `JSON.parse`. -/
def jsonWsChar (c : Char) : Bool :=
  c == ' ' || c == '\t' || c == '\n' || c == '\r'

/-- Skip JSON whitespace. -/
def skipJWs (s : List Char) : List Char := s.dropWhile jsonWsChar

/-- Value of a hexadecimal digit. -/
def hexVal (c : Char) : Nat :=
  if c.isDigit then c.toNat - '0'.toNat
  else if decide ('a' ≤ c) && decide (c ≤ 'f') then c.toNat - 'a'.toNat + 10
  else c.toNat - 'A'.toNat + 10

/-- Is `c` a hexadecimal digit? -/
def isHexC (c : Char) : Bool :=
  c.isDigit || (decide ('a' ≤ c) && decide (c ≤ 'f')) ||
  (decide ('A' ≤ c) && decide (c ≤ 'F'))

/-- Single-character JSON string escapes. -/
def escChar (e : Char) : Option Char :=
  if e == '"' then some '"'
  else if e == '\\' then some '\\'
  else if e == '/' then some '/'
  else if e == 'b' then some '\u0008'
  else if e == 'f' then some '\u000c'
  else if e == 'n' then some '\n'
  else if e == 'r' then some '\r'
  else if e == 't' then some '\t'
  else none

/-- JSON string body parser (after the opening quote); returns the decoded
content and the rest after the closing quote.  Fuelled structural
recursion; the fuel is instantiated large enough at every call site. -/
def parseJString : Nat → List Char → Option (List Char × List Char)
  | 0, _ => none
  | _, [] => none
  | fuel + 1, c :: rest =>
    if c == '"' then some ([], rest)
    else if c == '\\' then
      match rest with
      | [] => none
      | e :: rest2 =>
        if e == 'u' then
          match rest2 with
          | h1 :: h2 :: h3 :: h4 :: rest3 =>
            if isHexC h1 && isHexC h2 && isHexC h3 && isHexC h4 then
              (parseJString fuel rest3).map
                (fun pr =>
                  (Char.ofNat
                      (((hexVal h1 * 16 + hexVal h2) * 16 + hexVal h3) * 16 + hexVal h4)
                    :: pr.1, pr.2))
            else none
          | _ => none
        else
          match escChar e with
          | some d => (parseJString fuel rest2).map (fun pr => (d :: pr.1, pr.2))
          | none => none
    else if c.toNat < 32 then none
    else (parseJString fuel rest).map (fun pr => (c :: pr.1, pr.2))

/-- Split a leading run of decimal digits. -/
def parseDigits (s : List Char) : List Char × List Char :=
  (s.takeWhile Char.isDigit, s.dropWhile Char.isDigit)

/-- JSON number: integer part (`0` or nonzero-led digits). -/
def parseIntPart : List Char → Option (List Char × List Char)
  | [] => none
  | c :: r =>
    if c == '0' then some (['0'], r)
    else if c.isDigit then
      let pr := parseDigits r
      some (c :: pr.1, pr.2)
    else none

/-- JSON number: optional fraction part. -/
def parseFracPart (s : List Char) : Option (List Char × List Char) :=
  match s with
  | '.' :: r =>
    let pr := parseDigits r
    if pr.1.isEmpty then none else some ('.' :: pr.1, pr.2)
  | _ => some ([], s)

/-- JSON number: optional exponent part. -/
def parseExpPart (s : List Char) : Option (List Char × List Char) :=
  match s with
  | c :: r =>
    if c == 'e' || c == 'E' then
      let sr : List Char × List Char :=
        match r with
        | s2 :: r2 => if s2 == '+' || s2 == '-' then ([s2], r2) else ([], r)
        | [] => ([], r)
      let pr := parseDigits sr.2
      if pr.1.isEmpty then none else some (c :: (sr.1 ++ pr.1), pr.2)
    else some ([], s)
  | [] => some ([], s)

/-- JSON number lexer: returns the full lexeme and the rest. -/
def parseNumber (s : List Char) : Option (List Char × List Char) :=
  let sg : List Char × List Char :=
    match s with
    | '-' :: r => (['-'], r)
    | _ => ([], s)
  match parseIntPart sg.2 with
  | none => none
  | some (ip, r1) =>
    match parseFracPart r1 with
    | none => none
    | some (fp, r2) =>
      match parseExpPart r2 with
      | none => none
      | some (ep, r3) => some (sg.1 ++ ip ++ fp ++ ep, r3)

mutual

/-- Model of the recursive core of `JSON.parse`: parse one JSON value at the
head of the input (whitespace already skipped), returning it and the rest. -/
def parseValue : Nat → List Char → Option (Json × List Char)
  | 0, _ => none
  | fuel + 1, s =>
    match s with
    | 'n' :: 'u' :: 'l' :: 'l' :: r => some (Json.null, r)
    | 't' :: 'r' :: 'u' :: 'e' :: r => some (Json.bool true, r)
    | 'f' :: 'a' :: 'l' :: 's' :: 'e' :: r => some (Json.bool false, r)
    | '"' :: r => (parseJString (r.length + 1) r).map (fun pr => (Json.str pr.1, pr.2))
    | '[' :: r =>
      (match skipJWs r with
       | ']' :: r2 => some (Json.arr [], r2)
       | r1 => parseArrElems fuel r1 [])
    | c :: r =>
      if c = lbrace then
        (let r1 := skipJWs r
         if r1.head? = some rbrace then some (Json.obj [], r1.tail)
         else parseObjFields fuel r1 [])
      else (parseNumber (c :: r)).map (fun pr => (Json.num pr.1, pr.2))
    | [] => none

/-- `JSON.parse` array elements: value, then `,` for more or `]` to close. -/
def parseArrElems : Nat → List Char → List Json → Option (Json × List Char)
  | 0, _, _ => none
  | fuel + 1, s, acc =>
    match parseValue fuel (skipJWs s) with
    | none => none
    | some (v, rest) =>
      match skipJWs rest with
      | ',' :: r2 => parseArrElems fuel r2 (acc ++ [v])
      | ']' :: r2 => some (Json.arr (acc ++ [v]), r2)
      | _ => none

/-- `JSON.parse` object members: string key, `:`, value, then `,` or `}`.
Duplicate keys are kept in order; lookup takes the last one, as JavaScript
object literals do. -/
def parseObjFields : Nat → List Char → List (List Char × Json) →
    Option (Json × List Char)
  | 0, _, _ => none
  | fuel + 1, s, acc =>
    match skipJWs s with
    | '"' :: r =>
      (match parseJString (r.length + 1) r with
       | none => none
       | some (key, r1) =>
         match skipJWs r1 with
         | ':' :: r2 =>
           (match parseValue fuel (skipJWs r2) with
            | none => none
            | some (v, r3) =>
              match skipJWs r3 with
              | ',' :: r4 => parseObjFields fuel r4 (acc ++ [(key, v)])
              | c :: r4 =>
                if c = rbrace then some (Json.obj (acc ++ [(key, v)]), r4) else none
              | [] => none)
         | _ => none)
    | _ => none

end

/-- Model of `JSON.parse`: a single JSON value surrounded only by JSON
whitespace; `none` models the `SyntaxError` thrown on invalid input. -/
def jsonParse (s : List Char) : Option Json :=
  match parseValue (2 * s.length + 2) (skipJWs s) with
  | some (v, rest) => if skipJWs rest = [] then some v else none
  | none => none

/-- JavaScript truthiness of a parsed JSON value, as tested by
`jsonResponse.newImagePrompt` in App.tsx and `!articles` in
geminiService.ts.  A number is falsy exactly when its mantissa digits are
all zero (extreme exponents that underflow in IEEE doubles are not
modelled; no claim inspects a numeric value). -/
def jsTruthy : Json → Bool
  | Json.null => false
  | Json.bool b => b
  | Json.num lex =>
    !((lex.takeWhile (fun c => !(c == 'e' || c == 'E'))).all
        (fun c => c == '0' || c == '-' || c == '.'))
  | Json.str s => !s.isEmpty
  | Json.arr _ => true
  | Json.obj _ => true

/-- JavaScript `x.length === 0` on a parsed JSON value: arrays and strings
have a `length` property; on anything else the test compares `undefined`
with `0` and is false. -/
def jsLenZero : Json → Bool
  | Json.arr xs => xs.isEmpty
  | Json.str s => s.isEmpty
  | _ => false

/-- JavaScript property access on a parsed JSON value: objects look up the
last binding of the key (later duplicate keys win); any other value yields
`undefined`, modelled as `none`. -/
def fieldOpt (j : Json) (k : List Char) : Option Json :=
  match j with
  | Json.obj fields => (fields.reverse.find? (fun p => p.1 == k)).map (fun p => p.2)
  | _ => none

/-- Does the condition at the close of a markdown fence hold: the text,
after its maximal leading run of `\s` characters, begins with three
backticks?  This is exactly when the regex tail `\s*<fence>` can match
here (a shorter `\s*` would have to match `<fence>` against a whitespace
character). -/
def closeOk (u : List Char) : Bool :=
  (u.dropWhile isWs).take 3 == fence3

/-- Greedy capture tail for the regex `(\[[\s\S]*\])\s*<fence>` of
`fetchTrendingNews`, applied to the text after the opening `[`: the
backtracking engine keeps the capture extending to the LAST `]` that is
still followed by `\s*` and three backticks.  Returns the capture content
after the opening bracket (closing bracket included). -/
def greedyCap : List Char → Option (List Char)
  | [] => none
  | c :: t =>
    match greedyCap t with
    | some cap => some (c :: cap)
    | none => if c = ']' ∧ closeOk t = true then some [c] else none

/-- One attempted match of `/<fence>(?:json)?\s*(\[[\s\S]*\])\s*<fence>/`
at the head of the input, following the regex engine: three backticks, an
optional literal `json` tag (consuming it first; if the tag is present the
tagless alternative always fails, since `\s*` cannot reach a `[` across
the letter `j`), greedy `\s*` (forced to the maximal whitespace run, as
the following `[` is not whitespace), then the bracketed greedy capture. -/
def tryMatchAt (s : List Char) : Option (List Char) :=
  match s with
  | c1 :: c2 :: c3 :: rest =>
    if c1 = btick ∧ c2 = btick ∧ c3 = btick then
      let r1 := if rest.take 4 = ['j', 's', 'o', 'n'] then rest.drop 4 else rest
      match r1.dropWhile isWs with
      | '[' :: t => (greedyCap t).map (fun cap => '[' :: cap)
      | _ => none
    else none
  | _ => none

/-- Leftmost match of the fenced-JSON-array regex of `fetchTrendingNews`
over the whole text, as `String.prototype.match` does: try each start
position from the left and return the first successful capture. -/
def fenceScan : List Char → Option (List Char)
  | [] => none
  | c :: rest =>
    match tryMatchAt (c :: rest) with
    | some cap => some cap
    | none => fenceScan rest

/-- Lazy capture tail for the regexes `([\s\S]*?)\s*<fence>` of
`generateNewsletter` and `refineNewsletter`: the capture is the shortest
prefix whose remainder satisfies `closeOk`. -/
def lazyCap : List Char → Option (List Char)
  | [] => none
  | c :: t =>
    if closeOk (c :: t) = true then some []
    else (lazyCap t).map (fun cap => c :: cap)

/-- Consume the first matching tag of a regex alternation such as
`(?:json|html)?`, left to right; absent tag consumes nothing. -/
def applyTag : List (List Char) → List Char → List Char
  | [], r => r
  | tg :: rest, r => if r.take tg.length = tg then r.drop tg.length else applyTag rest r

/-- One attempted lazy-fence match `/<fence>(?:tags)?\s*([\s\S]*?)\s*<fence>/`
at the head of the input.  As with the greedy matcher, a consumed tag never
needs to be backtracked: the capture start positions it skips are tag
letters, at which `closeOk` cannot hold either. -/
def lazyTryAt (tags : List (List Char)) (s : List Char) : Option (List Char) :=
  if s.take 3 = fence3 then
    let r1 := applyTag tags (s.drop 3)
    lazyCap (r1.dropWhile isWs)
  else none

/-- Leftmost match of a lazy-fence regex over the whole text. -/
def lazyScan (tags : List (List Char)) : List Char → Option (List Char)
  | [] => none
  | c :: rest =>
    match lazyTryAt tags (c :: rest) with
    | some cap => some cap
    | none => lazyScan tags rest

/-- Index of the first occurrence of `c` (JavaScript `indexOf`; `none`
models `-1`). -/
def firstIdxOf (s : List Char) (c : Char) : Option Nat :=
  match s with
  | [] => none
  | x :: t => if x = c then some 0 else (firstIdxOf t c).map (fun i => i + 1)

/-- Index of the last occurrence of `c` (JavaScript `lastIndexOf`; `none`
models `-1`). -/
def lastIdxOf (s : List Char) (c : Char) : Option Nat :=
  match s with
  | [] => none
  | x :: t =>
    match lastIdxOf t c with
    | some k => some (k + 1)
    | none => if x = c then some 0 else none

/-- The JSON candidate text isolated by `fetchTrendingNews` (geminiService
lines 35-55): trim the response, try the fenced-array regex, and otherwise
fall back to slicing from the first `[` to the last `]` inclusive; `none`
models the `throw` of "Could not find a JSON array". -/
def newsExtractText (raw : List Char) : Option (List Char) :=
  let s := jsTrim raw
  match fenceScan s with
  | some cap => some cap
  | none =>
    match firstIdxOf s '[', lastIdxOf s ']' with
    | some i, some j => if j < i then none else some ((s.drop i).take (j + 1 - i))
    | _, _ => none

/-- The distinct failure points inside the `try` block of
`fetchTrendingNews`: no array boundaries found, `JSON.parse` threw
`SyntaxError`, or the zero-articles check fired. -/
inductive NewsStageError where
  | extraction
  | parse
  | empty

/-- The body of `fetchTrendingNews`'s `try` block on a received response
text: isolate the candidate, `JSON.parse` it, and reject empty (or falsy)
results; `.ok` is the value the function would return. -/
def newsStage (raw : List Char) : Except NewsStageError Json :=
  match newsExtractText raw with
  | none => Except.error NewsStageError.extraction
  | some cand =>
    match jsonParse cand with
    | none => Except.error NewsStageError.parse
    | some v =>
      if !jsTruthy v || jsLenZero v then Except.error NewsStageError.empty
      else Except.ok v

/-- User-facing message of the catch-all rewrap in `fetchTrendingNews`. -/
def newsMsgTransport : String :=
  "Failed to fetch news from the AI. Check API key or try again later."

/-- User-facing message of the `SyntaxError` branch in `fetchTrendingNews`. -/
def newsMsgParse : String :=
  "Failed to parse the news data from the AI. The format was invalid."

/-- Model of `fetchTrendingNews` as seen by its caller: the argument is the
AI call's outcome.  Every error raised inside the `try` block funnels
through the single `catch`, which re-throws the parse message only for
`SyntaxError` and the generic fetch message for everything else —
including the extraction and empty-result errors thrown by the `try` body
itself. -/
def fetchTrendingNews (resp : Except Unit (List Char)) : Except String Json :=
  match resp with
  | Except.error _ => Except.error newsMsgTransport
  | Except.ok raw =>
    match newsStage raw with
    | Except.ok v => Except.ok v
    | Except.error NewsStageError.parse => Except.error newsMsgParse
    | Except.error NewsStageError.extraction => Except.error newsMsgTransport
    | Except.error NewsStageError.empty => Except.error newsMsgTransport

/-- User-facing message of the catch-all in `generateNewsletter`. -/
def draftMsg : String :=
  "Failed to generate the newsletter from the AI. Please try again."

/-- Model of `generateNewsletter` as seen by its caller: trim the response
(an empty response throws inside `try` and is rewrapped by the catch-all),
then strip a lazy `(?:html)?` fence when its capture is truthy
(non-empty), trimming the capture. -/
def generateNewsletterSvc (resp : Except Unit (List Char)) : Except String (List Char) :=
  match resp with
  | Except.error _ => Except.error draftMsg
  | Except.ok raw =>
    let t := jsTrim raw
    if t = [] then Except.error draftMsg
    else
      match lazyScan [['h', 't', 'm', 'l']] t with
      | some cap => Except.ok (if cap = [] then t else jsTrim cap)
      | none => Except.ok t

/-- User-facing message of the catch-all in `generateHeaderImage`. -/
def imageMsg : String :=
  "Failed to generate the header image from the AI. Please try again."

/-- Model of `generateHeaderImage`: an environment failure (transport or
empty image list) surfaces the generic image message; success yields the
base64 bytes. -/
def generateHeaderImageSvc (resp : Except Unit (List Char)) : Except String (List Char) :=
  match resp with
  | Except.error _ => Except.error imageMsg
  | Except.ok b64 => Except.ok b64

/-- User-facing message of the catch-all in `refineNewsletter`. -/
def refineMsg : String :=
  "Failed to refine the newsletter from the AI. Please try again."

/-- Model of `refineNewsletter` as seen by its caller: trim (an empty
response throws inside `try` and is rewrapped), then strip a lazy
`(?:json|html)?` fence when its capture is truthy, trimming the capture. -/
def refineNewsletterSvc (resp : Except Unit (List Char)) : Except String (List Char) :=
  match resp with
  | Except.error _ => Except.error refineMsg
  | Except.ok raw =>
    let t := jsTrim raw
    if t = [] then Except.error refineMsg
    else
      match lazyScan [['j', 's', 'o', 'n'], ['h', 't', 'm', 'l']] t with
      | some cap => Except.ok (if cap = [] then t else jsTrim cap)
      | none => Except.ok t

/-- Which handler is in flight (`loadingAction` of App.tsx). -/
inductive LoadAction where
  | generate
  | refine
deriving DecidableEq

/-- The network calls a handler can issue, in order of issue. -/
inductive NetCall where
  | news
  | draft
  | image
  | refineCall
deriving DecidableEq

/-- The App.tsx state touched by the two handlers.  Form fields that only
feed prompt construction (industry, tone, word length, ...) are omitted:
the model treats request prompts as opaque and only tracks which calls are
issued.  `articles` is kept as the parsed JSON value, since
`fetchTrendingNews` performs no schema validation on the elements. -/
structure AppState where
  topics : List String
  minArticles : Nat
  shouldGenerateImage : Bool
  newsletterHtml : Option (List Char)
  headerImageUrl : Option (List Char)
  articles : Json
  refinementPrompt : List Char
  loadingAction : Option LoadAction
  loadingMessage : String
  error : Option String

/-- Responses the environment supplies to one generation cycle's three
network calls. -/
structure GenEnv where
  newsResp : Except Unit (List Char)
  draftResp : Except Unit (List Char)
  imageResp : Except Unit (List Char)

/-- Responses the environment supplies to one refinement cycle's calls. -/
structure RefEnv where
  refineResp : Except Unit (List Char)
  imageResp : Except Unit (List Char)

/-- Validation message for an empty topic list (App.tsx line 56). -/
def emptyTopicsMsg : String := "Please add at least one topic."

/-- App-level zero-articles message (App.tsx line 72; unreachable through
`fetchTrendingNews`, which never returns an empty list). -/
def noArticlesMsg : String :=
  "Could not find any relevant news articles. Try different topics."

/-- Message thrown by the inner catch of `handleRefineNewsletter` for any
failure after a JSON-shaped refinement response (App.tsx line 117). -/
def refineShapeMsg : String :=
  "AI response was not in the expected format. Please rephrase."

/-- The data-URI wrapper applied to returned image bytes. -/
def dataUriHead : List Char := ("data:image/png;base64," : String).toList

/-- The `finally` block shared by both handlers: loading cleared. -/
def finishGen (s : AppState) : AppState :=
  { s with loadingAction := none, loadingMessage := "" }

/-- The `finally` block of `handleRefineNewsletter`: loading cleared and
the directive input cleared regardless of outcome. -/
def finishRef (s : AppState) : AppState :=
  { s with loadingAction := none, loadingMessage := "", refinementPrompt := [] }

/-- JavaScript falsiness of the `newsletterHtml` state variable
(`!newsletterHtml`): `null` or the empty string. -/
def jsStrEmpty : Option (List Char) → Bool
  | none => true
  | some s => s.isEmpty

/-- Model of `handleGenerateNewsletter` (App.tsx lines 54-94): validate the
topic list (nothing else — in particular the loading flag is NOT
checked), clear document/error/article state, then run news → draft →
optional image, recording every issued network call.  Any step's error
message is stored by the shared catch; the `finally` block resets the
loading state. -/
def handleGenerateNewsletter (s : AppState) (env : GenEnv) : AppState × List NetCall :=
  if s.topics.length = 0 then
    ({ s with error := some emptyTopicsMsg }, [])
  else
    let s1 : AppState :=
      { s with loadingAction := some LoadAction.generate, error := none,
               newsletterHtml := none, headerImageUrl := none,
               articles := Json.arr [],
               loadingMessage := "Researching trending news..." }
    match fetchTrendingNews env.newsResp with
    | Except.error m => (finishGen { s1 with error := some m }, [NetCall.news])
    | Except.ok v =>
      let s2 := { s1 with articles := v }
      if jsLenZero v then
        (finishGen { s2 with error := some noArticlesMsg }, [NetCall.news])
      else
        let s3 := { s2 with loadingMessage := "Crafting your newsletter..." }
        match generateNewsletterSvc env.draftResp with
        | Except.error m => (finishGen { s3 with error := some m }, [NetCall.news, NetCall.draft])
        | Except.ok h =>
          let s4 := { s3 with newsletterHtml := some h }
          if s.shouldGenerateImage then
            let s5 := { s4 with loadingMessage := "Generating header image..." }
            match generateHeaderImageSvc env.imageResp with
            | Except.error m =>
              (finishGen { s5 with error := some m },
               [NetCall.news, NetCall.draft, NetCall.image])
            | Except.ok b64 =>
              (finishGen { s5 with headerImageUrl := some (dataUriHead ++ b64) },
               [NetCall.news, NetCall.draft, NetCall.image])
          else (finishGen s4, [NetCall.news, NetCall.draft])

/-- The `startsWith('{') && endsWith('}')` test of App.tsx line 104. -/
def isJsonLike (r : List Char) : Bool :=
  let t := jsTrim r
  t.head? == some lbrace && t.getLast? == some rbrace

/-- The characters of the `requestType` directive key. -/
def reqTypeKey : List Char := ("requestType" : String).toList

/-- The characters of the `newImagePrompt` directive key. -/
def newPromptKey : List Char := ("newImagePrompt" : String).toList

/-- The characters of the string `image`. -/
def imageLit : List Char := ("image" : String).toList

/-- The image-directive test of App.tsx line 108:
`jsonResponse.requestType === 'image' && jsonResponse.newImagePrompt`. -/
def isImageDirective (j : Json) : Bool :=
  match fieldOpt j reqTypeKey with
  | some (Json.str s) =>
    if s = imageLit then
      match fieldOpt j newPromptKey with
      | some v => jsTruthy v
      | none => false
    else false
  | _ => false

/-- Model of `handleRefineNewsletter` (App.tsx lines 96-131): a no-op when
the trimmed directive is empty or no document exists (the loading flag is
NOT checked); otherwise enter refining, call the service, and either
parse a JSON-shaped result into an image directive (any failure inside
that branch — bad JSON, wrong shape, or image-generation error — is
rethrown by the inner catch as the same shape message) or store the bare
result as the new body HTML.  The `finally` block clears loading and the
directive input. -/
def handleRefineNewsletter (s : AppState) (env : RefEnv) : AppState × List NetCall :=
  if (jsTrim s.refinementPrompt).isEmpty || jsStrEmpty s.newsletterHtml then
    (s, [])
  else
    let s1 : AppState :=
      { s with loadingAction := some LoadAction.refine, error := none,
               loadingMessage := "Refining your newsletter..." }
    match refineNewsletterSvc env.refineResp with
    | Except.error m => (finishRef { s1 with error := some m }, [NetCall.refineCall])
    | Except.ok r =>
      if isJsonLike r then
        match jsonParse r with
        | none => (finishRef { s1 with error := some refineShapeMsg }, [NetCall.refineCall])
        | some j =>
          if isImageDirective j then
            let s2 := { s1 with loadingMessage := "Generating new header image..." }
            match generateHeaderImageSvc env.imageResp with
            | Except.error _ =>
              (finishRef { s2 with error := some refineShapeMsg },
               [NetCall.refineCall, NetCall.image])
            | Except.ok b64 =>
              (finishRef { s2 with headerImageUrl := some (dataUriHead ++ b64) },
               [NetCall.refineCall, NetCall.image])
          else (finishRef { s1 with error := some refineShapeMsg }, [NetCall.refineCall])
      else (finishRef { s1 with newsletterHtml := some r }, [NetCall.refineCall])

/-- A representative idle session state used by concrete witnesses. -/
def idleState : AppState :=
  { topics := ["AI"], minArticles := 1, shouldGenerateImage := true,
    newsletterHtml := some ("<p>old</p>" : String).toList,
    headerImageUrl := some ("data:old" : String).toList,
    articles := Json.arr [], refinementPrompt := ("tweak it" : String).toList,
    loadingAction := none, loadingMessage := "", error := none }

/-- An environment in which every network call fails in transport. -/
def env0 : GenEnv :=
  { newsResp := Except.error (), draftResp := Except.error (), imageResp := Except.error () }

/-- Claim C7: a call to the generation entry point with an empty topic list
issues no network call and only records the validation message, leaving
every other field of the session state as it was. -/
theorem C7_empty_topics (s : AppState) (env : GenEnv) (h : s.topics = []) :
    handleGenerateNewsletter s env = ({ s with error := some emptyTopicsMsg }, []) := by
  simp [handleGenerateNewsletter, h]

/-- Witness for C7 at a concrete state and environment. -/
theorem C7_empty_topics_witness :
    handleGenerateNewsletter { idleState with topics := [] } env0
      = ({ idleState with topics := [], error := some emptyTopicsMsg }, []) :=
  C7_empty_topics { idleState with topics := [] } env0 rfl

/-- Claim C2 (code bug): the no-array-boundaries failure of the news fetch
does NOT surface its own message — the error thrown inside the `try` is
replaced by the catch-all with the same generic message a transport
failure produces, so only the `SyntaxError` (parse) message is
distinguishable. -/
theorem C2_extraction_message_collision :
    fetchTrendingNews (Except.ok ("The weather is nice today." : String).toList)
        = Except.error newsMsgTransport
      ∧ fetchTrendingNews (Except.error ()) = Except.error newsMsgTransport
      ∧ fetchTrendingNews (Except.ok ("[oops]" : String).toList)
        = Except.error newsMsgParse :=
  ⟨rfl, rfl, rfl⟩

/-- Claim C3 (code bug): a syntactically valid empty array is rejected by
the zero-articles check inside `fetchTrendingNews` (never success with
zero articles), but the thrown empty-result message is swallowed by the
function's own catch-all and the user sees the generic fetch-failure
message; a valid non-empty array succeeds. -/
theorem C3_empty_array_misreported :
    newsStage ("[]" : String).toList = Except.error NewsStageError.empty
      ∧ fetchTrendingNews (Except.ok ("[]" : String).toList)
        = Except.error newsMsgTransport
      ∧ fetchTrendingNews (Except.ok ("[1]" : String).toList)
        = Except.ok (Json.arr [Json.num ['1']]) :=
  ⟨rfl, rfl, rfl⟩

/-- Claim C10: the news fetch performs no schema validation — any response
whose extracted candidate parses to a non-empty JSON array is returned
verbatim as the article list, whatever the elements look like, and a
generation cycle then stores it and proceeds to the draft call. -/
theorem C10_no_schema_validation (raw cand : List Char) (xs : List Json)
    (h1 : newsExtractText raw = some cand)
    (h2 : jsonParse cand = some (Json.arr xs)) (h3 : xs ≠ []) :
    fetchTrendingNews (Except.ok raw) = Except.ok (Json.arr xs)
      ∧ ∀ (s : AppState) (env : GenEnv), s.topics ≠ [] → env.newsResp = Except.ok raw →
          NetCall.draft ∈ (handleGenerateNewsletter s env).2
          ∧ (handleGenerateNewsletter s env).1.articles = Json.arr xs := by
  have hfetch : fetchTrendingNews (Except.ok raw) = Except.ok (Json.arr xs) := by
    simp [fetchTrendingNews, newsStage, h1, h2, jsTruthy, jsLenZero, h3]
  refine ⟨hfetch, fun s env hs he => ?_⟩
  have hlen : ¬ s.topics.length = 0 := by
    simpa [List.length_eq_zero] using hs
  simp only [handleGenerateNewsletter, if_neg hlen, he, hfetch]
  have hz : jsLenZero (Json.arr xs) = false := by simp [jsLenZero, h3]
  rw [hz]
  cases hd : generateNewsletterSvc env.draftResp with
  | error m => simp [finishGen]
  | ok h =>
    by_cases hg : s.shouldGenerateImage
    · simp only [hg, if_true]
      cases hi : generateHeaderImageSvc env.imageResp with
      | error m => simp [finishGen]
      | ok b64 => simp [finishGen]
    · simp [hg, finishGen]

/-- Witness for C10: an array whose elements have none of the
title/summary/source/link/date fields is still returned as the article
list. -/
theorem C10_no_schema_validation_witness :
    fetchTrendingNews (Except.ok ("[\x7b\"foo\":1\x7d,42]" : String).toList)
      = Except.ok (Json.arr [Json.obj [(("foo" : String).toList, Json.num ['1'])],
                             Json.num ['4', '2']]) :=
  (C10_no_schema_validation ("[\x7b\"foo\":1\x7d,42]" : String).toList
    ("[\x7b\"foo\":1\x7d,42]" : String).toList
    [Json.obj [(("foo" : String).toList, Json.num ['1'])], Json.num ['4', '2']]
    rfl rfl (by simp)).1

/-- Claim C6: for a successful refinement from a state with a document, an
image-directive response replaces only the header image and leaves the
body HTML byte-identical, while a bare (non-object-shaped) response
replaces the body HTML with exactly the response text and leaves the
header image untouched. -/
theorem C6_refinement_frame (s : AppState) (env : RefEnv) (doc r : List Char)
    (hP : (jsTrim s.refinementPrompt).isEmpty = false)
    (hH : s.newsletterHtml = some doc) (hd : doc.isEmpty = false)
    (hr : refineNewsletterSvc env.refineResp = Except.ok r) :
    ((isJsonLike r = true →
      ∀ fields p b64,
        jsonParse r = some (Json.obj fields) →
        fieldOpt (Json.obj fields) reqTypeKey = some (Json.str imageLit) →
        fieldOpt (Json.obj fields) newPromptKey = some (Json.str p) →
        p ≠ [] →
        env.imageResp = Except.ok b64 →
        (handleRefineNewsletter s env).1.newsletterHtml = some doc
          ∧ (handleRefineNewsletter s env).1.headerImageUrl
              = some (dataUriHead ++ b64))
     ∧ (isJsonLike r = false →
        (handleRefineNewsletter s env).1.newsletterHtml = some r
          ∧ (handleRefineNewsletter s env).1.headerImageUrl = s.headerImageUrl)) := by
  have hP2 : ¬ jsTrim s.refinementPrompt = [] := by
    intro h
    rw [h] at hP
    simp at hP
  have hd2 : jsStrEmpty (some doc) = false := by
    simp [jsStrEmpty, List.isEmpty_eq_false] at hd ⊢
    exact hd
  constructor
  · intro hjl fields p b64 hparse hrt hnp hpne himg
    have hdir : isImageDirective (Json.obj fields) = true := by
      simp [isImageDirective, hrt, hnp, jsTruthy, hpne]
    simp [handleRefineNewsletter, hP2, hH, hd2, hr, hjl, hparse, hdir, himg,
          generateHeaderImageSvc, finishRef]
  · intro hjl
    simp [handleRefineNewsletter, hP2, hH, hd2, hr, hjl, finishRef]

/-- The refinement environment used by the C6 witness: an image-directive
response and a successful image call. -/
def env6a : RefEnv :=
  { refineResp :=
      Except.ok ("\x7b\"requestType\":\"image\",\"newImagePrompt\":\"mountains\"\x7d" : String).toList,
    imageResp := Except.ok ("IMGB" : String).toList }

/-- The refinement environment used by the C6 witness's second half: a bare
HTML response. -/
def env6b : RefEnv :=
  { refineResp := Except.ok ("<h1>New</h1>" : String).toList,
    imageResp := Except.error () }

/-- Witness for C6 at a concrete state and both response shapes. -/
theorem C6_refinement_frame_witness :
    ((handleRefineNewsletter idleState env6a).1.newsletterHtml
        = some ("<p>old</p>" : String).toList
      ∧ (handleRefineNewsletter idleState env6a).1.headerImageUrl
        = some (dataUriHead ++ ("IMGB" : String).toList))
    ∧ ((handleRefineNewsletter idleState env6b).1.newsletterHtml
        = some ("<h1>New</h1>" : String).toList
      ∧ (handleRefineNewsletter idleState env6b).1.headerImageUrl
        = idleState.headerImageUrl) :=
  ⟨(C6_refinement_frame idleState env6a ("<p>old</p>" : String).toList _
      rfl rfl rfl rfl).1 rfl
      [((("requestType" : String).toList, Json.str ("image" : String).toList)),
       ((("newImagePrompt" : String).toList, Json.str ("mountains" : String).toList))]
      ("mountains" : String).toList ("IMGB" : String).toList
      rfl rfl rfl (by decide) rfl,
   (C6_refinement_frame idleState env6b ("<p>old</p>" : String).toList _
      rfl rfl rfl rfl).2 rfl⟩

/-- The ways a refinement cycle can fail after passing its entry guard:
the service call fails (transport or empty response), a JSON-shaped
result does not parse, it parses to something other than an image
directive, or the follow-up image generation fails. -/
def RefineFailure (env : RefEnv) : Prop :=
  (∃ m, refineNewsletterSvc env.refineResp = Except.error m)
  ∨ (∃ r, refineNewsletterSvc env.refineResp = Except.ok r
        ∧ isJsonLike r = true ∧ jsonParse r = none)
  ∨ (∃ r j, refineNewsletterSvc env.refineResp = Except.ok r
        ∧ isJsonLike r = true ∧ jsonParse r = some j ∧ isImageDirective j = false)
  ∨ (∃ r j, refineNewsletterSvc env.refineResp = Except.ok r
        ∧ isJsonLike r = true ∧ jsonParse r = some j ∧ isImageDirective j = true
        ∧ env.imageResp = Except.error ())

/-- Claim C8: on every error outcome of a refinement started from an idle
state, the resulting state equals the original with only an error message
recorded and the directive input cleared — in particular the body HTML
and the header image keep their prior values. -/
theorem C8_refine_error_frame (s : AppState) (env : RefEnv)
    (hP : (jsTrim s.refinementPrompt).isEmpty = false)
    (hH : jsStrEmpty s.newsletterHtml = false)
    (hla : s.loadingAction = none) (hlm : s.loadingMessage = "")
    (hf : RefineFailure env) :
    ∃ m, (handleRefineNewsletter s env).1
      = { s with error := some m, refinementPrompt := [] } := by
  have hP2 : ¬ jsTrim s.refinementPrompt = [] := by
    intro h
    rw [h] at hP
    simp at hP
  obtain ⟨t, m, g, nh, hi, ar, rp, la, lm, e⟩ := s
  simp only at hP2 hH hla hlm
  subst hla hlm
  rcases hf with ⟨m, hm⟩ | ⟨r, hr, hjl, hnp⟩ | ⟨r, j, hr, hjl, hjp, hnd⟩ |
    ⟨r, j, hr, hjl, hjp, hd, himg⟩
  · exact ⟨m, by simp [handleRefineNewsletter, hP2, hH, hm, finishRef]⟩
  · exact ⟨refineShapeMsg, by simp [handleRefineNewsletter, hP2, hH, hr, hjl, hnp, finishRef]⟩
  · exact ⟨refineShapeMsg,
      by simp [handleRefineNewsletter, hP2, hH, hr, hjl, hjp, hnd, finishRef]⟩
  · exact ⟨refineShapeMsg,
      by simp [handleRefineNewsletter, hP2, hH, hr, hjl, hjp, hd, himg,
               generateHeaderImageSvc, finishRef]⟩

/-- The refinement environment used by the C8 witness: the refinement call
itself fails in transport. -/
def env8 : RefEnv := { refineResp := Except.error (), imageResp := Except.error () }

/-- Witness for C8 at a concrete idle state and a failing environment. -/
theorem C8_refine_error_frame_witness :
    ∃ m, (handleRefineNewsletter idleState env8).1
      = { idleState with error := some m, refinementPrompt := [] } :=
  C8_refine_error_frame idleState env8 rfl rfl rfl rfl
    (Or.inl ⟨refineMsg, rfl⟩)

/-- Claim C9: once a generation cycle passes topic validation, the previous
document, header image and article list are cleared up front, and a
failure at the news, draft or image step leaves them cleared (the fetched
articles replace the old list; a draft produced before a failing image
step remains stored) — none of the prior values is restored. -/
theorem C9_generation_clearing (s : AppState) (env : GenEnv)
    (hT : s.topics ≠ []) (hla : s.loadingAction = none) (hlm : s.loadingMessage = "") :
    (∀ m, fetchTrendingNews env.newsResp = Except.error m →
      (handleGenerateNewsletter s env).1
        = { s with error := some m, newsletterHtml := none,
                   headerImageUrl := none, articles := Json.arr [] })
    ∧ (∀ v m, fetchTrendingNews env.newsResp = Except.ok v → jsLenZero v = false →
        generateNewsletterSvc env.draftResp = Except.error m →
        (handleGenerateNewsletter s env).1
          = { s with error := some m, newsletterHtml := none,
                     headerImageUrl := none, articles := v })
    ∧ (∀ v h m, fetchTrendingNews env.newsResp = Except.ok v → jsLenZero v = false →
        generateNewsletterSvc env.draftResp = Except.ok h →
        s.shouldGenerateImage = true →
        generateHeaderImageSvc env.imageResp = Except.error m →
        (handleGenerateNewsletter s env).1
          = { s with error := some m, newsletterHtml := some h,
                     headerImageUrl := none, articles := v }) := by
  have hlen : ¬ s.topics.length = 0 := by
    simpa [List.length_eq_zero] using hT
  obtain ⟨t, mn, g, nh, hi, ar, rp, la, lm, e⟩ := s
  simp only at hlen hla hlm ⊢
  subst hla hlm
  refine ⟨fun m hm => ?_, fun v m hv hz hm => ?_, fun v h m hv hz hd hg hm => ?_⟩
  · simp [handleGenerateNewsletter, hlen, hm, finishGen]
  · simp [handleGenerateNewsletter, hlen, hv, hz, hm, finishGen]
  · simp only at hg
    simp [handleGenerateNewsletter, hlen, hv, hz, hd, hg, hm, finishGen]

/-- The generation environment used by the C9 witness: the news call
returns one article, the draft call fails. -/
def env9 : GenEnv :=
  { newsResp := Except.ok ("[1]" : String).toList,
    draftResp := Except.error (), imageResp := Except.error () }

/-- Witness for C9 at a concrete state whose prior document is lost when
the draft step fails. -/
theorem C9_generation_clearing_witness :
    (handleGenerateNewsletter idleState env9).1
      = { idleState with error := some draftMsg, newsletterHtml := none,
                         headerImageUrl := none,
                         articles := Json.arr [Json.num ['1']] } :=
  (C9_generation_clearing idleState env9 (by simp [idleState]) rfl rfl).2.1
    (Json.arr [Json.num ['1']]) draftMsg rfl rfl rfl

/-- Claim C1 (amended): the entry points do not check the activity flag at
all — their behaviour is independent of `loadingAction`, and whenever
their own guards pass (non-empty topics for generation; non-empty trimmed
directive and an existing document for refinement) they start a cycle and
issue network calls even from a non-idle state.  Single-flight is
enforced only by the presentation layer disabling the buttons. -/
theorem C1_entry_points_ignore_loading (s : AppState) (genv : GenEnv) (renv : RefEnv)
    (la : Option LoadAction) :
    (s.topics ≠ [] →
      handleGenerateNewsletter { s with loadingAction := la } genv
          = handleGenerateNewsletter s genv
        ∧ (handleGenerateNewsletter s genv).2 ≠ [])
    ∧ ((jsTrim s.refinementPrompt).isEmpty = false → jsStrEmpty s.newsletterHtml = false →
      handleRefineNewsletter { s with loadingAction := la } renv
          = handleRefineNewsletter s renv
        ∧ (handleRefineNewsletter s renv).2 ≠ []) := by
  obtain ⟨t, mn, g, nh, hi, ar, rp, la0, lm, e⟩ := s
  constructor
  · intro hT
    simp only at hT
    have hlen : ¬ t.length = 0 := by simpa [List.length_eq_zero] using hT
    constructor
    · simp only [handleGenerateNewsletter]
      rw [if_neg hlen, if_neg hlen]
    · simp only [handleGenerateNewsletter]
      rw [if_neg hlen]
      rcases hn : fetchTrendingNews genv.newsResp with m | v
      · simp
      · by_cases hz : jsLenZero v
        · simp [hz]
        · rcases hd : generateNewsletterSvc genv.draftResp with m | h
          · simp [hz]
          · by_cases hg : g
            · rcases hi2 : generateHeaderImageSvc genv.imageResp with m | b64 <;>
                simp [hz, hg]
            · simp [hz, hg]
  · intro hP hH
    simp only at hP hH
    have hP2 : ¬ jsTrim rp = [] := by
      intro h
      rw [h] at hP
      simp at hP
    constructor
    · simp only [handleRefineNewsletter]
      simp [hP2, hH]
    · simp only [handleRefineNewsletter]
      rcases hr : refineNewsletterSvc renv.refineResp with m | r
      · simp [hP2, hH]
      · by_cases hjl : isJsonLike r
        · rcases hjp : jsonParse r with _ | j
          · simp [hP2, hH, hjl, hjp]
          · by_cases hdir : isImageDirective j
            · rcases hi2 : generateHeaderImageSvc renv.imageResp with m | b64 <;>
                simp [hP2, hH, hjl, hjp, hdir]
            · simp [hP2, hH, hjl, hjp, hdir]
        · simp [hP2, hH, hjl]

/-- The refinement environment used by the C1 witness. -/
def renv0 : RefEnv := { refineResp := Except.error (), imageResp := Except.error () }

/-- Witness for C1 (amended) at a concrete state and a concrete non-idle
loading flag. -/
theorem C1_entry_points_ignore_loading_witness :
    (handleGenerateNewsletter { idleState with loadingAction := some LoadAction.refine } env0
        = handleGenerateNewsletter idleState env0
      ∧ (handleGenerateNewsletter idleState env0).2 ≠ [])
    ∧ (handleRefineNewsletter { idleState with loadingAction := some LoadAction.refine } renv0
        = handleRefineNewsletter idleState renv0
      ∧ (handleRefineNewsletter idleState renv0).2 ≠ []) :=
  ⟨(C1_entry_points_ignore_loading idleState env0 renv0 (some LoadAction.refine)).1
      (by simp [idleState]),
   (C1_entry_points_ignore_loading idleState env0 renv0 (some LoadAction.refine)).2
      rfl rfl⟩

/-- Counterexample to claim C1 as stated: from a state that is already
generating, invoking the generation entry point is NOT a no-op — it
issues a news network call and changes the session state. -/
theorem C1_counterexample :
    (handleGenerateNewsletter { idleState with loadingAction := some LoadAction.generate }
        env0).2 ≠ []
    ∧ (handleGenerateNewsletter { idleState with loadingAction := some LoadAction.generate }
        env0).1
      ≠ { idleState with loadingAction := some LoadAction.generate } := by
  constructor
  · have hcalls :
        (handleGenerateNewsletter { idleState with loadingAction := some LoadAction.generate }
          env0).2 = [NetCall.news] := rfl
    rw [hcalls]
    simp
  · intro h
    have hhtml :
        (handleGenerateNewsletter { idleState with loadingAction := some LoadAction.generate }
          env0).1.newsletterHtml = none := rfl
    rw [h] at hhtml
    simp [idleState] at hhtml

/-- Soundness of `firstIdxOf`: a returned index holds the character and is
minimal. -/
theorem firstIdxOf_some_spec (s : List Char) (c : Char) (i : Nat)
    (h : firstIdxOf s c = some i) :
    s.get? i = some c ∧ ∀ k, k < i → s.get? k ≠ some c := by
  induction s generalizing i with
  | nil => simp [firstIdxOf] at h
  | cons x t ih =>
    by_cases hx : x = c
    · simp only [firstIdxOf, if_pos hx, Option.some.injEq] at h
      subst h
      simp [hx]
    · simp only [firstIdxOf, if_neg hx, Option.map_eq_some'] at h
      obtain ⟨i', hi', rfl⟩ := h
      obtain ⟨h1, h2⟩ := ih i' hi'
      refine ⟨by simpa using h1, ?_⟩
      intro k hk
      cases k with
      | zero => simp [hx]
      | succ k' =>
        simpa using h2 k' (by omega)

/-- Completeness of `firstIdxOf`: `none` means the character is absent. -/
theorem firstIdxOf_none_spec (s : List Char) (c : Char)
    (h : firstIdxOf s c = none) : ∀ k, s.get? k ≠ some c := by
  induction s with
  | nil => simp
  | cons x t ih =>
    by_cases hx : x = c
    · simp [firstIdxOf, hx] at h
    · simp only [firstIdxOf, if_neg hx, Option.map_eq_none'] at h
      intro k
      cases k with
      | zero => simp [hx]
      | succ k' => simpa using ih h k'

/-- Completeness of `lastIdxOf`: `none` means the character is absent. -/
theorem lastIdxOf_none_spec (s : List Char) (c : Char)
    (h : lastIdxOf s c = none) : ∀ k, s.get? k ≠ some c := by
  induction s with
  | nil => simp
  | cons x t ih =>
    cases ht : lastIdxOf t c with
    | some k => simp [lastIdxOf, ht] at h
    | none =>
      by_cases hx : x = c
      · simp [lastIdxOf, ht, hx] at h
      · intro k
        cases k with
        | zero => simp [hx]
        | succ k' => simpa using ih ht k'

/-- Soundness of `lastIdxOf`: a returned index holds the character and is
maximal. -/
theorem lastIdxOf_some_spec (s : List Char) (c : Char) (j : Nat)
    (h : lastIdxOf s c = some j) :
    s.get? j = some c ∧ ∀ k, s.get? k = some c → k ≤ j := by
  induction s generalizing j with
  | nil => simp [lastIdxOf] at h
  | cons x t ih =>
    cases ht : lastIdxOf t c with
    | some k =>
      simp only [lastIdxOf, ht, Option.some.injEq] at h
      subst h
      obtain ⟨g1, g2⟩ := ih k ht
      refine ⟨by simpa using g1, ?_⟩
      intro m hm
      cases m with
      | zero => omega
      | succ m' =>
        have := g2 m' (by simpa using hm)
        omega
    | none =>
      by_cases hx : x = c
      · simp only [lastIdxOf, ht, if_pos hx, Option.some.injEq] at h
        subst h
        refine ⟨by simp [hx], ?_⟩
        intro m hm
        cases m with
        | zero => exact Nat.le_refl 0
        | succ m' =>
          exact absurd (by simpa using hm) (lastIdxOf_none_spec t c ht m')
      · simp [lastIdxOf, ht, hx] at h

/-- `firstIdxOf` computes the least index holding the character. -/
theorem firstIdxOf_of_spec (s : List Char) (c : Char) (i : Nat)
    (h1 : s.get? i = some c) (h2 : ∀ k, k < i → s.get? k ≠ some c) :
    firstIdxOf s c = some i := by
  cases h : firstIdxOf s c with
  | none => exact absurd h1 (firstIdxOf_none_spec s c h i)
  | some i' =>
    obtain ⟨g1, g2⟩ := firstIdxOf_some_spec s c i' h
    rcases Nat.lt_trichotomy i i' with hlt | heq | hgt
    · exact absurd h1 (g2 i hlt)
    · rw [heq]
    · exact absurd g1 (h2 i' hgt)

/-- `lastIdxOf` computes the greatest index holding the character. -/
theorem lastIdxOf_of_spec (s : List Char) (c : Char) (j : Nat)
    (h1 : s.get? j = some c)
    (h2 : ∀ k, k < s.length → s.get? k = some c → k ≤ j) :
    lastIdxOf s c = some j := by
  cases h : lastIdxOf s c with
  | none => exact absurd h1 (lastIdxOf_none_spec s c h j)
  | some j' =>
    obtain ⟨g1, g2⟩ := lastIdxOf_some_spec s c j' h
    obtain ⟨hlt, _⟩ := List.get?_eq_some.mp g1
    have ha := g2 j h1
    have hb := h2 j' hlt g1
    have hj : j' = j := Nat.le_antisymm hb ha
    exact congrArg some hj

/-- Claim C5: with no matching fence, the news extraction slices from the
first `[` (the least index holding one) to the last `]` (the greatest)
inclusive, and fails at the extraction stage when `[` is absent, `]` is
absent, or the last `]` precedes the first `[`. -/
theorem C5_bracket_fallback (raw s : List Char) (hs : jsTrim raw = s)
    (hf : fenceScan s = none) :
    (∀ i j, s.get? i = some '[' → (∀ k, k < i → s.get? k ≠ some '[') →
       s.get? j = some ']' → (∀ k, k < s.length → s.get? k = some ']' → k ≤ j) →
       i ≤ j →
       newsExtractText raw = some ((s.drop i).take (j + 1 - i)))
    ∧ ((∀ k, k < s.length → s.get? k ≠ some '[') →
       newsStage raw = Except.error NewsStageError.extraction)
    ∧ ((∀ k, k < s.length → s.get? k ≠ some ']') →
       newsStage raw = Except.error NewsStageError.extraction)
    ∧ (∀ i j, s.get? i = some '[' → (∀ k, k < i → s.get? k ≠ some '[') →
       s.get? j = some ']' → (∀ k, k < s.length → s.get? k = some ']' → k ≤ j) →
       j < i →
       newsStage raw = Except.error NewsStageError.extraction) := by
  refine ⟨?_, ?_, ?_, ?_⟩
  · intro i j h1 h2 h3 h4 hij
    have hfi := firstIdxOf_of_spec s '[' i h1 h2
    have hlj := lastIdxOf_of_spec s ']' j h3 h4
    simp only [newsExtractText, hs, hf, hfi, hlj]
    rw [if_neg (by omega)]
  · intro hno
    cases hfi : firstIdxOf s '[' with
    | some i =>
      obtain ⟨g1, _⟩ := firstIdxOf_some_spec s '[' i hfi
      obtain ⟨hlt, _⟩ := List.get?_eq_some.mp g1
      exact absurd g1 (hno i hlt)
    | none =>
      cases hlj : lastIdxOf s ']' <;>
        simp [newsStage, newsExtractText, hs, hf, hfi, hlj]
  · intro hno
    cases hlj : lastIdxOf s ']' with
    | some j =>
      obtain ⟨g1, _⟩ := lastIdxOf_some_spec s ']' j hlj
      obtain ⟨hlt, _⟩ := List.get?_eq_some.mp g1
      exact absurd g1 (hno j hlt)
    | none =>
      cases hfi : firstIdxOf s '[' <;>
        simp [newsStage, newsExtractText, hs, hf, hfi, hlj]
  · intro i j h1 h2 h3 h4 hij
    have hfi := firstIdxOf_of_spec s '[' i h1 h2
    have hlj := lastIdxOf_of_spec s ']' j h3 h4
    simp [newsStage, newsExtractText, hs, hf, hfi, hlj, hij]

/-- Witness for C5 at a concrete fenceless response. -/
theorem C5_bracket_fallback_witness :
    newsExtractText ("xx [1, 2] yy" : String).toList
      = some (("[1, 2]" : String).toList) :=
  (C5_bracket_fallback ("xx [1, 2] yy" : String).toList
      ("xx [1, 2] yy" : String).toList (by decide) (by decide)).1 3 8
    (by decide) (by decide) (by decide) (by decide) (by decide)

/-- Counterexample to claim C4 as stated: this response contains the
well-formed fenced block ```` ```json\n[1]\n``` ```` wrapping the array
`[1]`, yet the greedy capture of the extraction regex runs on to the last
`]` that still precedes whitespace and a fence, so the returned candidate
is not the enclosed array. -/
theorem C4_counterexample :
    newsExtractText ("```json\n[1]\n``` see [2] ```" : String).toList
      = some (("[1]\n``` see [2]" : String).toList)
    ∧ ("[1]\n``` see [2]" : String).toList ≠ ("[1]" : String).toList :=
  ⟨rfl, by decide⟩

/-- Dropping over a prefix all of whose elements satisfy the predicate. -/
theorem dropWhile_append_all (p : Char → Bool) (xs ys : List Char)
    (h : ∀ c ∈ xs, p c = true) :
    (xs ++ ys).dropWhile p = ys.dropWhile p := by
  induction xs with
  | nil => rfl
  | cons x t ih =>
    simp only [List.cons_append, List.dropWhile_cons, h x (List.mem_cons_self x t),
      if_true]
    exact ih (fun c hc => h c (List.mem_cons_of_mem x hc))

/-- After a whitespace run, a fence satisfies the close condition. -/
theorem closeOk_ws_fence (ws b : List Char) (hws : ∀ c ∈ ws, isWs c = true) :
    closeOk (ws ++ (btick :: btick :: btick :: b)) = true := by
  unfold closeOk
  rw [dropWhile_append_all isWs ws _ hws, List.dropWhile_cons,
    if_neg (by decide : ¬ isWs btick = true)]
  simp [fence3]

/-- A backtick-free text can never satisfy the close condition. -/
theorem closeOk_no_btick (u : List Char) (h : ∀ c ∈ u, c ≠ btick) :
    closeOk u = false := by
  unfold closeOk
  rw [Bool.eq_false_iff]
  intro hx
  rw [beq_iff_eq] at hx
  have hmem : btick ∈ (u.dropWhile isWs).take 3 := by
    rw [hx]
    simp [fence3]
  have hmem2 : btick ∈ u.dropWhile isWs := List.mem_of_mem_take hmem
  exact h btick ((List.dropWhile_sublist isWs).subset hmem2) rfl

/-- A backtick-free text admits no greedy capture end. -/
theorem greedyCap_none_no_btick (u : List Char) (h : ∀ c ∈ u, c ≠ btick) :
    greedyCap u = none := by
  induction u with
  | nil => rfl
  | cons c t ih =>
    have ht := ih (fun d hd => h d (List.mem_cons_of_mem c hd))
    simp only [greedyCap, ht]
    rw [if_neg]
    rintro ⟨-, hcl⟩
    rw [closeOk_no_btick t (fun d hd => h d (List.mem_cons_of_mem c hd))] at hcl
    exact Bool.false_ne_true hcl

/-- Extending a capture-free tail by a non-`]` character keeps it
capture-free. -/
theorem greedyCap_cons_none (c : Char) (l : List Char) (hl : greedyCap l = none)
    (hc : c ≠ ']') : greedyCap (c :: l) = none := by
  simp only [greedyCap, hl]
  rw [if_neg]
  rintro ⟨h1, -⟩
  exact hc h1

/-- The region after the array — trailing whitespace, the closing fence and
backtick-free prose — admits no greedy capture end. -/
theorem greedyCap_ws_fence_none (ws b : List Char)
    (hws : ∀ c ∈ ws, isWs c = true) (hb : ∀ c ∈ b, c ≠ btick) :
    greedyCap (ws ++ (btick :: btick :: btick :: b)) = none := by
  have hbt : btick ≠ ']' := by decide
  have hbase : greedyCap (btick :: btick :: btick :: b) = none :=
    greedyCap_cons_none _ _
      (greedyCap_cons_none _ _
        (greedyCap_cons_none _ _ (greedyCap_none_no_btick b hb) hbt) hbt) hbt
  induction ws with
  | nil => simpa using hbase
  | cons w ws' ih =>
    have hw : isWs w = true := hws w (List.mem_cons_self _ _)
    have hw' : w ≠ ']' := by
      intro he
      rw [he] at hw
      exact absurd hw (by decide)
    simp only [List.cons_append]
    exact greedyCap_cons_none _ _
      (ih (fun c hc => hws c (List.mem_cons_of_mem _ hc))) hw'

/-- The greedy capture over the array body ends exactly at the array's
closing `]` when nothing after it can close the match. -/
theorem greedyCap_main (mid rest0 : List Char) (hnone : greedyCap rest0 = none)
    (hclose : closeOk rest0 = true) :
    greedyCap (mid ++ (']' :: rest0)) = some (mid ++ [']']) := by
  induction mid with
  | nil =>
    simp only [List.nil_append, greedyCap, hnone]
    simp [hclose]
  | cons c t ih =>
    simp only [List.cons_append, greedyCap, List.append_eq, ih]

/-- Reduction of a match attempt at a fence head. -/
theorem tryMatchAt_fence_head (rest : List Char) :
    tryMatchAt (btick :: btick :: btick :: rest)
      = (match (if rest.take 4 = ['j', 's', 'o', 'n'] then rest.drop 4
                else rest).dropWhile isWs with
         | '[' :: t => (greedyCap t).map (fun cap => '[' :: cap)
         | _ => none) := by
  simp [tryMatchAt]

/-- A match attempt at the opening fence of a well-delimited fenced array
succeeds with exactly the enclosed array as the capture. -/
theorem tryMatchAt_fenced (tag ws mid ws2 b : List Char)
    (hTag : tag = [] ∨ tag = ['j', 's', 'o', 'n'])
    (hws : ∀ c ∈ ws, isWs c = true) (hws2 : ∀ c ∈ ws2, isWs c = true)
    (hb : ∀ c ∈ b, c ≠ btick) :
    tryMatchAt (btick :: btick :: btick ::
        (tag ++ (ws ++ ('[' :: (mid ++ (']' ::
          (ws2 ++ (btick :: btick :: btick :: b))))))))
      = some ('[' :: (mid ++ [']'])) := by
  have hgc : greedyCap (mid ++ (']' :: (ws2 ++ (btick :: btick :: btick :: b))))
      = some (mid ++ [']']) :=
    greedyCap_main _ _ (greedyCap_ws_fence_none ws2 b hws2 hb)
      (closeOk_ws_fence ws2 b hws2)
  have hdw : ∀ T : List Char, (ws ++ ('[' :: T)).dropWhile isWs = '[' :: T := by
    intro T
    rw [dropWhile_append_all isWs ws _ hws, List.dropWhile_cons,
      if_neg (by decide : ¬ isWs '[' = true)]
  rcases hTag with rfl | rfl
  · have htake : ∀ T : List Char, ¬ (ws ++ ('[' :: T)).take 4 = ['j', 's', 'o', 'n'] := by
      intro T heq
      cases ws with
      | nil =>
        have h1 : (some '[' : Option Char) = some 'j' := congrArg List.head? heq
        exact absurd h1 (by decide)
      | cons w ws' =>
        have h1 : (some w : Option Char) = some 'j' := congrArg List.head? heq
        have hw : isWs w = true := hws w (List.mem_cons_self _ _)
        rw [Option.some.injEq] at h1
        rw [h1] at hw
        exact absurd hw (by decide)
    rw [List.nil_append, tryMatchAt_fence_head, if_neg (htake _), hdw]
    show (greedyCap (mid ++ (']' :: (ws2 ++ (btick :: btick :: btick :: b))))).map
        (fun cap => '[' :: cap) = some ('[' :: (mid ++ [']']))
    rw [hgc]
    rfl
  · rw [tryMatchAt_fence_head]
    have htk : (['j', 's', 'o', 'n']
        ++ (ws ++ ('[' :: (mid ++ (']' :: (ws2 ++ (btick :: btick :: btick :: b))))))).take 4
        = ['j', 's', 'o', 'n'] := rfl
    have hdp : (['j', 's', 'o', 'n']
        ++ (ws ++ ('[' :: (mid ++ (']' :: (ws2 ++ (btick :: btick :: btick :: b))))))).drop 4
        = ws ++ ('[' :: (mid ++ (']' :: (ws2 ++ (btick :: btick :: btick :: b))))) := rfl
    rw [if_pos htk, hdp, hdw]
    show (greedyCap (mid ++ (']' :: (ws2 ++ (btick :: btick :: btick :: b))))).map
        (fun cap => '[' :: cap) = some ('[' :: (mid ++ [']']))
    rw [hgc]
    rfl

/-- A match attempt can only succeed at a backtick. -/
theorem tryMatchAt_no_btick (x : Char) (l : List Char) (hx : x ≠ btick) :
    tryMatchAt (x :: l) = none := by
  cases l with
  | nil => rfl
  | cons y l' =>
    cases l' with
    | nil => rfl
    | cons z l'' =>
      simp only [tryMatchAt]
      rw [if_neg]
      rintro ⟨h1, -, -⟩
      exact hx h1

/-- Scanning skips a backtick-free prefix. -/
theorem fenceScan_append (a l : List Char) (ha : ∀ c ∈ a, c ≠ btick) :
    fenceScan (a ++ l) = fenceScan l := by
  induction a with
  | nil => rfl
  | cons x t ih =>
    have hx := ha x (List.mem_cons_self _ _)
    simp only [List.cons_append, fenceScan, tryMatchAt_no_btick x _ hx]
    exact ih (fun c hc => ha c (List.mem_cons_of_mem _ hc))

/-- Claim C4 (amended): for a response whose trimmed text is backtick-free
prose, then a fenced JSON array (fence optionally tagged `json`), then
backtick-free prose, the extraction returns exactly the enclosed array.
(The counterexample forces the prose restriction: a stray fence after the
block can extend the greedy capture.) -/
theorem C4_fenced_extraction (raw a tag ws mid ws2 b : List Char)
    (htrim : jsTrim raw
      = a ++ (btick :: btick :: btick ::
          (tag ++ (ws ++ ('[' :: (mid ++ (']' ::
            (ws2 ++ (btick :: btick :: btick :: b)))))))))
    (hTag : tag = [] ∨ tag = ['j', 's', 'o', 'n'])
    (ha : ∀ c ∈ a, c ≠ btick) (hb : ∀ c ∈ b, c ≠ btick)
    (hws : ∀ c ∈ ws, isWs c = true) (hws2 : ∀ c ∈ ws2, isWs c = true) :
    newsExtractText raw = some ('[' :: (mid ++ [']'])) := by
  have hscan : fenceScan (jsTrim raw) = some ('[' :: (mid ++ [']'])) := by
    rw [htrim, fenceScan_append a _ ha]
    simp only [fenceScan, tryMatchAt_fenced tag ws mid ws2 b hTag hws hws2 hb]
  simp only [newsExtractText, hscan]

/-- Witness for C4 (amended) at a concrete fenced response with prose on
both sides. -/
theorem C4_fenced_extraction_witness :
    newsExtractText ("Intro:\n```json\n[1]\n```\nend." : String).toList
      = some (("[1]" : String).toList) :=
  C4_fenced_extraction ("Intro:\n```json\n[1]\n```\nend." : String).toList
    ("Intro:\n" : String).toList ['j', 's', 'o', 'n'] ['\n'] ['1'] ['\n']
    ("\nend." : String).toList
    (by decide) (Or.inr rfl) (by decide) (by decide) (by decide) (by decide)
